import Mathlib

/-!
Verification of the SmartInventory demand-forecasting pipeline.

Shallow embedding of the repository's feature-engineering, prediction,
batch-orchestration and alerting code:

* `apps/forecasting/ml_service.py` — `MLService._prepare_features_for_prediction`,
  `MLService.predict_single` (feature construction, caching, confidence band);
* `ml/scripts/train.py` — `DemandForecaster.prepare_features`,
  `DemandForecaster.save_model` (training features, model activation);
* `apps/forecasting/tasks.py` — `batch_predict` (progress counters),
  `generate_inventory_alerts` (alert rules and deduplication).

Numeric values (Python floats / decimals) are embedded as `ℚ`; civil dates as
integer day numbers (only ordering and day-arithmetic on dates matter to the
embedded code).  External collaborators (the sklearn regressor, the stdlib
date parser) are modelled by their interfaces: a fallible prediction function
`FeatureRow → Except String ℚ` and the outcome of parsing, respectively.
-/

/-- One `SalesData` row for a (store, product) pair: observation date (civil day
number), sales, price, on-hand inventory and promotion flag
(`apps/data_management/models.py`). -/
structure Obs where
  date : Int
  sales : ℚ
  price : ℚ
  on_hand : Int
  promotions_flag : Bool
deriving DecidableEq, Repr

/-- The 60-day observation window used by
`MLService._prepare_features_for_prediction`: rows with
`start_date ≤ date ≤ end_date` where `end_date = target_date` and
`start_date = target_date - 60` (the Django query
`date__range=[start_date, end_date]`, both bounds inclusive, ordered by date;
`hist` is taken already ordered by date as the query returns it). -/
def windowObs (hist : List Obs) (target : Int) : List Obs :=
  hist.filter (fun o => decide (target - 60 ≤ o.date ∧ o.date ≤ target))

/-- `recent_sales[-n] if len(recent_sales) >= n else recent_sales[-1] if
len(recent_sales) >= 1 else 0` (ml_service.py lines 109–112): the n-th most
recent value when at least `n` observations exist, else the most recent value,
else 0. -/
def lagFeature (sales : List ℚ) (n : Nat) : ℚ :=
  if n ≤ sales.length then sales.reverse.getD (n - 1) 0
  else sales.reverse.getD 0 0

/-- `df[col].rolling(window=min(w, len(df))).mean().iloc[-1]`: the mean of the
last `min w xs.length` values. -/
def rollingMeanLast (xs : List ℚ) (w : Nat) : ℚ :=
  let k := min w xs.length
  (xs.reverse.take k).sum / (k : ℚ)

/-- The categorical encoding step of `_prepare_features_for_prediction`
(lines 91–98): both ids are encoded inside one `try`; if either lookup raises
(unseen value), the `except` overwrites BOTH encodings with the default 0.
A fitted `LabelEncoder` is its ordered class list; `transform` of a seen value
is its index. -/
def encodePair (encStore encSku : List String) (s k : String) : Nat × Nat :=
  if s ∈ encStore ∧ k ∈ encSku then (encStore.indexOf s, encSku.indexOf k)
  else (0, 0)

/-- The numeric feature row built by `_prepare_features_for_prediction`
(the calendar features of the target date are pure functions of the date and
are not touched by any claim, so they are not carried here). -/
structure FeatureRow where
  store_id_encoded : Nat
  sku_id_encoded : Nat
  sales_lag_1 : ℚ
  sales_lag_7 : ℚ
  sales_lag_14 : ℚ
  sales_lag_30 : ℚ
  sales_rolling_7 : ℚ
  sales_rolling_14 : ℚ
  sales_rolling_30 : ℚ
  price : ℚ
  price_change : ℚ
  price_rolling_7 : ℚ
  on_hand : Int
  inventory_ratio : ℚ
  promotions_flag : ℚ
deriving DecidableEq, Repr

/-- `MLService._prepare_features_for_prediction` (ml_service.py lines 66–144):
filters the 60-day window, returns `none` when it is empty, and otherwise
computes the feature row.  Notes tied to the source:
* `price` is overwritten with the scalar `current_price` before
  `price_rolling_7` is computed, so that rolling mean degenerates to
  `current_price` itself;
* `price_change = (current - prev) / prev if prev > 0 else 0`;
* `current_inventory` defaults to 50 and `current_price` to 10 on an empty
  column (unreachable here since the window is non-empty);
* `inventory_ratio = sales_lag_1 / (current_inventory + 1)`;
* `promotions_flag` is forced to 0 at inference. -/
def prepareFeaturesForPrediction (encStore encSku : List String)
    (storeId skuId : String) (hist : List Obs) (target : Int) : Option FeatureRow :=
  let w := windowObs hist target
  if w = [] then none
  else
    let sales := w.map (·.sales)
    let prices := w.map (·.price)
    let enc := encodePair encStore encSku storeId skuId
    let currentPrice := prices.reverse.getD 0 10
    let prevPrice := prices.reverse.getD 1 currentPrice
    let currentInventory := (w.map (·.on_hand)).reverse.getD 0 50
    let lag1 := lagFeature sales 1
    some
      { store_id_encoded := enc.1
        sku_id_encoded := enc.2
        sales_lag_1 := lag1
        sales_lag_7 := lagFeature sales 7
        sales_lag_14 := lagFeature sales 14
        sales_lag_30 := lagFeature sales 30
        sales_rolling_7 := rollingMeanLast sales 7
        sales_rolling_14 := rollingMeanLast sales 14
        sales_rolling_30 := rollingMeanLast sales 30
        price := currentPrice
        price_change :=
          if 0 < prevPrice then (currentPrice - prevPrice) / prevPrice else 0
        price_rolling_7 := currentPrice
        on_hand := currentInventory
        inventory_ratio := lag1 / ((currentInventory : ℚ) + 1)
        promotions_flag := 0 }

/-- The target-date argument of `predict_single`: either an already-parsed
civil date, or a raw string carried together with the outcome of
`datetime.strptime(s, "%Y-%m-%d")` — `none` when parsing raises `ValueError`.
The parser is Python stdlib, external to the repository, so only its outcome
is modelled. -/
inductive DateArg where
  | date (d : Int)
  | str (parse : Option Int)
deriving DecidableEq

/-- The date the body of `predict_single` works with; `none` means the
`strptime` call raised (the exception is caught by the enclosing `except`). -/
def resolveDate : DateArg → Option Int
  | .date d => some d
  | .str p => p

/-- The point-cache key `f"prediction_{store_id}_{sku_id}_{target_date}"`
(ml_service.py line 158): it is built from the store id, the sku id and the
target date only — the id of the model serving the request is not part of it. -/
structure CacheKey where
  store : String
  sku : String
  date : Int
deriving DecidableEq, Repr

/-- A successful prediction result: point demand plus confidence interval. -/
structure PredResult where
  demand : ℚ
  lower : ℚ
  upper : ℚ
deriving DecidableEq, Repr

/-- Django cache, restricted to the prediction entries: an association list,
most recent write first. -/
def cacheGet (c : List (CacheKey × PredResult)) (k : CacheKey) : Option PredResult :=
  (c.find? (fun e => decide (e.1 = k))).map (·.2)

/-- `cache.set(key, result, ...)`. -/
def cacheSet (c : List (CacheKey × PredResult)) (k : CacheKey) (v : PredResult) :
    List (CacheKey × PredResult) :=
  (k, v) :: c

/-- Lines 170–183 of ml_service.py: clamp the raw model output to be
non-negative, assume a 20% standard error, and apply the 1.96 multiplier:
`prediction = max(0, prediction)`, `std_error = prediction * 0.2`,
`lower = max(0, prediction - 1.96 * std_error)`,
`upper = prediction + 1.96 * std_error`. -/
def mkResult (raw : ℚ) : PredResult :=
  let demand := max 0 raw
  let stdError := demand * (2 / 10)
  { demand := demand
    lower := max 0 (demand - (196 / 100) * stdError)
    upper := demand + (196 / 100) * stdError }

/-- The state `predict_single` runs against: the loaded artifact (model with
its encoders), the sales history per (store, sku) as the DB returns it
(ordered by date), and the point cache.  The regressor is an external black
box behind `predict`; a `.error` outcome models `model.predict` raising. -/
structure MLState where
  model : Option (FeatureRow → Except String ℚ)
  encStore : List String
  encSku : List String
  history : String → String → List Obs
  cache : List (CacheKey × PredResult)

/-- Observable outcome of one `predict_single` call: the returned value, the
cache afterwards, and call-count spies for the feature builder and the model
(the spec verifies cache hits "via a call-count spy"). -/
structure PredOutcome where
  result : Option PredResult
  cache : List (CacheKey × PredResult)
  featureCalls : Nat
  modelCalls : Nat
deriving DecidableEq, Repr

/-- `MLService.predict_single` (ml_service.py lines 146–193).  Control flow of
the source, in order:
1. `if not self.model: return None` (before the `try`);
2. inside `try`: parse a string target date (`strptime` raising is caught by
   the `except`, which returns `None`);
3. cache lookup on `(store_id, sku_id, target_date)` — a hit returns the
   cached result immediately, nothing recomputed;
4. `_prepare_features_for_prediction`; `None` (empty history window) means no
   prediction;
5. `model.predict` (an exception is caught, returning `None`), clamp, build
   the confidence band, cache the result, return it. -/
def predictSingle (st : MLState) (storeId skuId : String) (arg : DateArg) :
    PredOutcome :=
  match st.model with
  | none => { result := none, cache := st.cache, featureCalls := 0, modelCalls := 0 }
  | some f =>
    match resolveDate arg with
    | none => { result := none, cache := st.cache, featureCalls := 0, modelCalls := 0 }
    | some d =>
      match cacheGet st.cache ⟨storeId, skuId, d⟩ with
      | some r => { result := some r, cache := st.cache, featureCalls := 0, modelCalls := 0 }
      | none =>
        match prepareFeaturesForPrediction st.encStore st.encSku storeId skuId
            (st.history storeId skuId) d with
        | none => { result := none, cache := st.cache, featureCalls := 1, modelCalls := 0 }
        | some row =>
          match f row with
          | .error _ =>
            { result := none, cache := st.cache, featureCalls := 1, modelCalls := 1 }
          | .ok raw =>
            { result := some (mkResult raw)
              cache := cacheSet st.cache ⟨storeId, skuId, d⟩ (mkResult raw)
              featureCalls := 1
              modelCalls := 1 }

/-- A row of the `MLModel` table, reduced to what activation touches
(`apps/forecasting/models.py`): the primary key and the `is_active` flag. -/
structure ModelRow where
  id : Nat
  is_active : Bool
deriving DecidableEq, Repr

/-- First statement of `DemandForecaster.save_model` (train.py lines 204–214):
`MLModel.objects.create(..., is_active=True, ...)` — the new row is inserted
already active. -/
def createModel (db : List ModelRow) (newId : Nat) : List ModelRow :=
  db ++ [{ id := newId, is_active := true }]

/-- Second statement (train.py line 217):
`MLModel.objects.filter(is_active=True).exclude(id=ml_model.id).update(is_active=False)`. -/
def deactivateOthers (db : List ModelRow) (keepId : Nat) : List ModelRow :=
  db.map (fun r => if r.id ≠ keepId ∧ r.is_active then { r with is_active := false } else r)

/-- `DemandForecaster.save_model`, database effect: insert the new active row,
then deactivate every other active row.  The two statements are separate
queries — there is no enclosing transaction in the source. -/
def saveModel (db : List ModelRow) (newId : Nat) : List ModelRow :=
  deactivateOthers (createModel db newId) newId

/-- Number of rows with `is_active=True`. -/
def countActive (db : List ModelRow) : Nat :=
  (db.filter (·.is_active)).length

/-- `int(q)` in Python: truncation toward zero. -/
def truncToInt (q : ℚ) : Int :=
  if 0 ≤ q then ⌊q⌋ else -⌊-q⌋

/-- The alert decision for one prediction, as created by
`generate_inventory_alerts` (`alert_type`, `priority`, and for the stockout
branch the computed `days_until_stockout` and the recommended reorder
quantity). -/
structure AlertDecision where
  alert_type : String
  priority : String
  days : Option Int
  reorder : Option Int
deriving DecidableEq, Repr

/-- `days_until_stockout = max(1, int(current_inventory / max(predicted_demand, 1)))`
(tasks.py line 217). -/
def daysUntilStockout (onHand : Int) (demand : ℚ) : Int :=
  max 1 (truncToInt ((onHand : ℚ) / max demand 1))

/-- Priority ladder of tasks.py lines 221–228. -/
def stockoutPriority (days : Int) : String :=
  if days ≤ 3 then "critical"
  else if days ≤ 7 then "high"
  else if days ≤ 14 then "medium"
  else "low"

/-- The rule chain of `generate_inventory_alerts` (tasks.py lines 215–264) for
one (prediction, current inventory) pair, first match wins:
* `current_inventory < predicted_demand * 1.5` → stockout risk, with
  `days_until_stockout`, the priority ladder, and
  `int(predicted_demand * 2)` recommended for reorder;
* `elif current_inventory > predicted_demand * 4` → overstock risk, priority
  fixed to low;
* else no alert. -/
def alertRule (onHand : Int) (demand : ℚ) : Option AlertDecision :=
  if (onHand : ℚ) < demand * (15 / 10) then
    let d := daysUntilStockout onHand demand
    some { alert_type := "stockout_risk", priority := stockoutPriority d,
           days := some d, reorder := some (truncToInt (demand * 2)) }
  else if (onHand : ℚ) > demand * 4 then
    some { alert_type := "overstock_risk", priority := "low",
           days := none, reorder := none }
  else none

/-- An `InventoryAlert` row, reduced to the fields deduplication touches
(`apps/forecasting/models.py` lines 95–133). -/
structure Alert where
  store : String
  product : String
  alert_type : String
  priority : String
  is_acknowledged : Bool
deriving DecidableEq, Repr

/-- The lookup part of
`InventoryAlert.objects.get_or_create(store=…, product=…, alert_type=…,
is_acknowledged=False, defaults={…})`: does this row match the lookup kwargs? -/
def alertKeyMatches (a : Alert) (s p t : String) : Bool :=
  a.store == s && a.product == p && a.alert_type == t && !a.is_acknowledged

/-- One detection step of `generate_inventory_alerts` (tasks.py lines 231–243
and 250–261): `get_or_create` returns the existing unacknowledged alert
unchanged when one matches (the `defaults` are not applied to it), and
otherwise inserts a fresh row built from the lookup kwargs plus defaults
(`is_acknowledged` takes the model default `False`, which also appears in the
lookup). -/
def processDetection (alerts : List Alert) (s p t prio : String) : List Alert :=
  match alerts.find? (fun a => alertKeyMatches a s p t) with
  | some _ => alerts
  | none => alerts ++ [{ store := s, product := p, alert_type := t,
                         priority := prio, is_acknowledged := false }]

/-- Number of unacknowledged alerts matching (store, product, alert_type). -/
def alertCount (alerts : List Alert) (s p t : String) : Nat :=
  (alerts.filter (fun a => alertKeyMatches a s p t)).length

/-- Outcome of one item of the `batch_predict` triple loop (tasks.py lines
58–108), abstracting what the environment does:
* `raised` — the per-item body threw before `completed += 1` (the inner
  `except` logs and `continue`s);
* `predicted` — `predict_single` returned a result, so a row is appended to
  `predictions_batch`;
* `flushOk` — when this item fills the batch, whether the
  `bulk_create`/`job.save()` flush succeeds (a flush failure is caught by the
  same per-item `except`, after `completed` was already incremented and the
  batch list was left unflushed). -/
structure ItemOutcome where
  raised : Bool
  predicted : Bool
  flushOk : Bool
deriving DecidableEq, Repr

/-- In-flight state of the `batch_predict` loop: the `completed` counter, the
length of the pending `predictions_batch`, and every `completed_predictions`
value persisted so far by a `job.save()` (the claim's observation points). -/
structure BatchState where
  completed : Nat
  batchLen : Nat
  saves : List Nat
deriving DecidableEq, Repr

/-- `BATCH_SIZE = 100` (tasks.py line 54). -/
def batchSize : Nat := 100

/-- One iteration of the inner loop of `batch_predict` (tasks.py lines 61–108):
append on success, `completed += 1`, and at a full batch flush the
predictions and persist the progress counter. -/
def stepItem (st : BatchState) (it : ItemOutcome) : BatchState :=
  if it.raised then st
  else if batchSize ≤ st.batchLen + (if it.predicted then 1 else 0) then
    if it.flushOk then
      { completed := st.completed + 1, batchLen := 0, saves := st.saves ++ [st.completed + 1] }
    else
      { completed := st.completed + 1,
        batchLen := st.batchLen + (if it.predicted then 1 else 0), saves := st.saves }
  else
    { completed := st.completed + 1,
      batchLen := st.batchLen + (if it.predicted then 1 else 0), saves := st.saves }

/-- The Cartesian product `for store in stores: for product in products:
for pred_date in dates:` of `batch_predict`. -/
def allItems (stores products : List String) (dates : List Int) :
    List (String × String × Int) :=
  stores.flatMap (fun s => products.flatMap (fun p => dates.map (fun d => (s, p, d))))

/-- Result of one `batch_predict` run: `total` is `total_predictions`
(persisted before the loop starts, tasks.py lines 49–51), `saves` the
sequence of persisted `completed_predictions` values. -/
structure JobRun where
  total : Nat
  saves : List Nat
deriving DecidableEq, Repr

/-- `batch_predict` (tasks.py lines 41–119): compute the date range and the
full product size, persist it as `total_predictions` with
`completed_predictions` still 0, run the triple loop, then (when the final
flush and save succeed rather than failing the job) persist the final
`completed_predictions`.  `outcome` abstracts the environment's behaviour on
each item. -/
def batchPredictRun (stores products : List String) (dates : List Int)
    (outcome : String × String × Int → ItemOutcome) (finalOk : Bool) : JobRun :=
  let items := allItems stores products dates
  let total := items.length
  let final := items.foldl (fun st it => stepItem st (outcome it))
    { completed := 0, batchLen := 0, saves := [0] }
  { total := total
    saves := if finalOk then final.saves ++ [final.completed] else final.saves }

/-- One row of the training DataFrame for a single (store, sku) group, after
the sort by date (train.py line 49). -/
structure TrainRow where
  date : Int
  sales : ℚ
  price : ℚ
  on_hand : Int
  promotions_flag : Bool
deriving DecidableEq, Repr

/-- `df.groupby(['store_id','sku_id'])['sales'].shift(lag)` at position `i` of
one group (train.py lines 66–67): the sales value `lag` rows earlier, `NaN`
(here `none`) when the group has no such row.  Rows where this is `NaN` are
dropped by `df.dropna(...)` (train.py line 93), not filled. -/
def trainSalesLag (rows : List TrainRow) (i lag : Nat) : Option ℚ :=
  if lag ≤ i then (rows.get? (i - lag)).map (·.sales) else none

/-- `df['inventory_ratio'] = df['sales'] / (df['on_hand'] + 1)` (train.py
line 78): the TRAINING ratio divides the row's own same-day sales — not the
lag-1 sales — by `on_hand + 1`. -/
def trainInventoryRatio (row : TrainRow) : ℚ :=
  row.sales / ((row.on_hand : ℚ) + 1)

/-- A one-observation sales history (an observation the day before the target
date used below), shared by the concrete evaluations. -/
def histOne : String → String → List Obs :=
  fun _ _ => [{ date := 9, sales := 5, price := 1, on_hand := 10, promotions_flag := false }]

/-- A ready service state: loaded model (always predicting 10), fitted
encoders, one observation of history, empty cache. -/
def stOk : MLState :=
  { model := some (fun _ => .ok 10), encStore := ["S"], encSku := ["P"],
    history := histOne, cache := [] }

/-- A state whose loaded model raises on `predict`. -/
def stRaise : MLState :=
  { model := some (fun _ => .error "predict raised"), encStore := ["S"], encSku := ["P"],
    history := histOne, cache := [] }

/-- A state with no active model loaded. -/
def stNoModel : MLState :=
  { model := none, encStore := [], encSku := [], history := fun _ _ => [], cache := [] }

/-- A ready state whose history is empty for every pair. -/
def stNoHistory : MLState :=
  { model := some (fun _ => .ok 10), encStore := ["S"], encSku := ["P"],
    history := fun _ _ => [], cache := [] }

/-- A ready state under model A (which predicts 5). -/
def stModelA : MLState :=
  { model := some (fun _ => .ok 5), encStore := ["S"], encSku := ["P"],
    history := histOne, cache := [] }

/-- The same deployment after switching to model B (which predicts 50): the
shared Django cache still holds whatever model A's call wrote, because the
point-cache key carries no model id. -/
def stModelB : MLState :=
  { model := some (fun _ => .ok 50), encStore := ["S"], encSku := ["P"],
    history := histOne, cache := (predictSingle stModelA "S" "P" (.date 10)).cache }

/-! ### General lemmas about the embedded operations -/

theorem cacheGet_set (c : List (CacheKey × PredResult)) (k : CacheKey) (v : PredResult) :
    cacheGet (cacheSet c k v) k = some v := by
  simp [cacheGet, cacheSet, List.find?]

theorem predictSingle_noModel (st : MLState) (s k : String) (arg : DateArg)
    (h : st.model = none) :
    predictSingle st s k arg = ⟨none, st.cache, 0, 0⟩ := by
  unfold predictSingle
  simp only [h]

theorem predictSingle_parseFail (st : MLState) (s k : String) (arg : DateArg)
    (f : FeatureRow → Except String ℚ) (hm : st.model = some f)
    (hd : resolveDate arg = none) :
    predictSingle st s k arg = ⟨none, st.cache, 0, 0⟩ := by
  unfold predictSingle
  simp only [hm, hd]

theorem predictSingle_cacheHit (st : MLState) (s k : String) (arg : DateArg)
    (f : FeatureRow → Except String ℚ) (d : Int) (r : PredResult)
    (hm : st.model = some f) (hd : resolveDate arg = some d)
    (hc : cacheGet st.cache ⟨s, k, d⟩ = some r) :
    predictSingle st s k arg = ⟨some r, st.cache, 0, 0⟩ := by
  unfold predictSingle
  simp only [hm, hd, hc]

theorem predictSingle_noFeatures (st : MLState) (s k : String) (arg : DateArg)
    (f : FeatureRow → Except String ℚ) (d : Int)
    (hm : st.model = some f) (hd : resolveDate arg = some d)
    (hc : cacheGet st.cache ⟨s, k, d⟩ = none)
    (hp : prepareFeaturesForPrediction st.encStore st.encSku s k (st.history s k) d = none) :
    predictSingle st s k arg = ⟨none, st.cache, 1, 0⟩ := by
  unfold predictSingle
  simp only [hm, hd, hc, hp]

theorem predictSingle_modelError (st : MLState) (s k : String) (arg : DateArg)
    (f : FeatureRow → Except String ℚ) (d : Int) (row : FeatureRow) (e : String)
    (hm : st.model = some f) (hd : resolveDate arg = some d)
    (hc : cacheGet st.cache ⟨s, k, d⟩ = none)
    (hp : prepareFeaturesForPrediction st.encStore st.encSku s k (st.history s k) d = some row)
    (hf : f row = .error e) :
    predictSingle st s k arg = ⟨none, st.cache, 1, 1⟩ := by
  unfold predictSingle
  simp only [hm, hd, hc, hp, hf]

theorem predictSingle_fresh (st : MLState) (s k : String) (arg : DateArg)
    (f : FeatureRow → Except String ℚ) (d : Int) (row : FeatureRow) (raw : ℚ)
    (hm : st.model = some f) (hd : resolveDate arg = some d)
    (hc : cacheGet st.cache ⟨s, k, d⟩ = none)
    (hp : prepareFeaturesForPrediction st.encStore st.encSku s k (st.history s k) d = some row)
    (hf : f row = .ok raw) :
    predictSingle st s k arg =
      ⟨some (mkResult raw), cacheSet st.cache ⟨s, k, d⟩ (mkResult raw), 1, 1⟩ := by
  unfold predictSingle
  simp only [hm, hd, hc, hp, hf]

/-- Exhaustive case analysis of one `predict_single` call: it either fails the
model check or date parse, hits the cache, finds no history, sees the model
raise, or computes a fresh clamped-and-banded result which it also caches. -/
theorem predictSingle_shape (st : MLState) (s k : String) (arg : DateArg) :
    (predictSingle st s k arg = ⟨none, st.cache, 0, 0⟩
        ∧ (st.model = none ∨ resolveDate arg = none))
    ∨ (∃ d r, resolveDate arg = some d ∧ cacheGet st.cache ⟨s, k, d⟩ = some r
        ∧ predictSingle st s k arg = ⟨some r, st.cache, 0, 0⟩)
    ∨ (∃ d, resolveDate arg = some d ∧ cacheGet st.cache ⟨s, k, d⟩ = none
        ∧ prepareFeaturesForPrediction st.encStore st.encSku s k (st.history s k) d = none
        ∧ predictSingle st s k arg = ⟨none, st.cache, 1, 0⟩)
    ∨ (∃ d, resolveDate arg = some d ∧ cacheGet st.cache ⟨s, k, d⟩ = none
        ∧ predictSingle st s k arg = ⟨none, st.cache, 1, 1⟩)
    ∨ (∃ d raw, resolveDate arg = some d ∧ cacheGet st.cache ⟨s, k, d⟩ = none
        ∧ predictSingle st s k arg =
            ⟨some (mkResult raw), cacheSet st.cache ⟨s, k, d⟩ (mkResult raw), 1, 1⟩) := by
  rcases hm : st.model with _ | f
  · exact Or.inl ⟨predictSingle_noModel st s k arg hm, Or.inl rfl⟩
  rcases hd : resolveDate arg with _ | d
  · exact Or.inl ⟨predictSingle_parseFail st s k arg f hm hd, Or.inr rfl⟩
  rcases hc : cacheGet st.cache ⟨s, k, d⟩ with _ | r
  · rcases hp : prepareFeaturesForPrediction st.encStore st.encSku s k (st.history s k) d
      with _ | row
    · exact Or.inr (Or.inr (Or.inl
        ⟨d, rfl, hc, hp, predictSingle_noFeatures st s k arg f d hm hd hc hp⟩))
    · rcases hf : f row with e | raw
      · exact Or.inr (Or.inr (Or.inr (Or.inl
          ⟨d, rfl, hc, predictSingle_modelError st s k arg f d row e hm hd hc hp hf⟩)))
      · exact Or.inr (Or.inr (Or.inr (Or.inr
          ⟨d, raw, rfl, hc, predictSingle_fresh st s k arg f d row raw hm hd hc hp hf⟩)))
  · exact Or.inr (Or.inl ⟨d, r, rfl, hc, predictSingle_cacheHit st s k arg f d r hm hd hc⟩)

/-- The clamp-and-band computation: the demand is non-negative, the band is
the fixed proportional-error band, and `lower ≤ demand ≤ upper` with
`lower ≥ 0`. -/
theorem mkResult_band (raw : ℚ) :
    0 ≤ (mkResult raw).demand
    ∧ (mkResult raw).lower
        = max 0 ((mkResult raw).demand - 196 / 100 * (2 / 10) * (mkResult raw).demand)
    ∧ (mkResult raw).upper
        = (mkResult raw).demand + 196 / 100 * (2 / 10) * (mkResult raw).demand
    ∧ 0 ≤ (mkResult raw).lower
    ∧ (mkResult raw).lower ≤ (mkResult raw).demand
    ∧ (mkResult raw).demand ≤ (mkResult raw).upper := by
  have hd : (0 : ℚ) ≤ max 0 raw := le_max_left 0 raw
  have herr : (0 : ℚ) ≤ 196 / 100 * (max 0 raw * (2 / 10)) := by positivity
  simp only [mkResult]
  refine ⟨hd, ?_, ?_, le_max_left _ _, ?_, ?_⟩
  · congr 1
    ring
  · ring
  · exact max_le hd (by linarith [herr])
  · linarith [herr]

/-- C2: for every successful `predict_single` call that runs the model, the
raw model output is clamped to a non-negative demand `d`, and the returned
confidence band is exactly `lower = max(0, d − 1.96·0.2·d)` and
`upper = d + 1.96·0.2·d`, so `lower ≥ 0` and `lower ≤ d ≤ upper` always
hold. -/
theorem claim_C2_confidence_band (st : MLState) (s k : String) (arg : DateArg)
    (r : PredResult)
    (hres : (predictSingle st s k arg).result = some r)
    (hfresh : (predictSingle st s k arg).modelCalls = 1) :
    0 ≤ r.demand
    ∧ r.lower = max 0 (r.demand - 196 / 100 * (2 / 10) * r.demand)
    ∧ r.upper = r.demand + 196 / 100 * (2 / 10) * r.demand
    ∧ 0 ≤ r.lower ∧ r.lower ≤ r.demand ∧ r.demand ≤ r.upper := by
  rcases predictSingle_shape st s k arg with
    ⟨heq, _⟩ | ⟨d, r0, _, _, heq⟩ | ⟨d, _, _, _, heq⟩ | ⟨d, _, _, heq⟩ | ⟨d, raw, _, _, heq⟩
  · rw [heq] at hres
    exact absurd hres (by simp)
  · rw [heq] at hfresh
    exact absurd hfresh (by simp)
  · rw [heq] at hres
    exact absurd hres (by simp)
  · rw [heq] at hres
    exact absurd hres (by simp)
  · rw [heq] at hres
    have hr : mkResult raw = r := by simpa using hres
    rw [← hr]
    exact mkResult_band raw

/-- C2 witness: the concrete ready state `stOk` computes a fresh prediction
for (S, P, day 10) and its band satisfies the claimed properties. -/
theorem claim_C2_witness :
    0 ≤ (mkResult 10).demand
    ∧ (mkResult 10).lower
        = max 0 ((mkResult 10).demand - 196 / 100 * (2 / 10) * (mkResult 10).demand)
    ∧ (mkResult 10).upper
        = (mkResult 10).demand + 196 / 100 * (2 / 10) * (mkResult 10).demand
    ∧ 0 ≤ (mkResult 10).lower
    ∧ (mkResult 10).lower ≤ (mkResult 10).demand
    ∧ (mkResult 10).demand ≤ (mkResult 10).upper :=
  claim_C2_confidence_band stOk "S" "P" (.date 10) (mkResult 10) (by rfl) (by rfl)

theorem prepareFeatures_emptyWindow (encS encK : List String) (s k : String)
    (hist : List Obs) (target : Int) (h : windowObs hist target = []) :
    prepareFeaturesForPrediction encS encK s k hist target = none := by
  simp [prepareFeaturesForPrediction, h]

/-- C6 (as amended): `predict_single` returns `None` in the not-ready cases —
no loaded model, and (absent a cached entry) no observation in the 60-day
window for the pair; both are empty results, not exceptions.  These are not
the only `None` cases: internal errors also return `None` (see the C6
counterexample and C10). -/
theorem claim_C6_not_ready_none (st : MLState) (s k : String) (arg : DateArg) :
    (st.model = none → (predictSingle st s k arg).result = none)
    ∧ (∀ f d, st.model = some f → resolveDate arg = some d →
        cacheGet st.cache ⟨s, k, d⟩ = none →
        windowObs (st.history s k) d = [] →
        (predictSingle st s k arg).result = none) := by
  constructor
  · intro h
    rw [predictSingle_noModel st s k arg h]
  · intro f d hm hd hc hw
    rw [predictSingle_noFeatures st s k arg f d hm hd hc
      (prepareFeatures_emptyWindow _ _ _ _ _ _ hw)]

/-- C6 counterexample: a loaded model and a non-empty observation window, yet
`predict_single` returns `None` — because `model.predict` raised and the
`except` turned it into `None`.  So `None` is not returned exactly in the two
not-ready cases. -/
theorem claim_C6_counterexample :
    stRaise.model.isSome = true
    ∧ windowObs (stRaise.history "S" "P") 10 ≠ []
    ∧ (predictSingle stRaise "S" "P" (.date 10)).result = none := by
  exact ⟨rfl, by decide, rfl⟩

/-- C6 witness: both not-ready cases at concrete states. -/
theorem claim_C6_witness :
    (predictSingle stNoModel "S" "P" (.date 10)).result = none
    ∧ (predictSingle stNoHistory "S" "P" (.date 10)).result = none := by
  refine ⟨(claim_C6_not_ready_none stNoModel "S" "P" (.date 10)).1 rfl, ?_⟩
  exact (claim_C6_not_ready_none stNoHistory "S" "P" (.date 10)).2
    (fun _ => .ok 10) 10 rfl rfl rfl (by decide)

/-- Any call that returns a result leaves that result in the cache under the
key (store, sku, date) — whether it was a cache hit or a fresh computation. -/
theorem predictSingle_some_inCache (st : MLState) (s k : String) (arg : DateArg)
    (r : PredResult) (hres : (predictSingle st s k arg).result = some r) :
    ∃ d, resolveDate arg = some d
      ∧ cacheGet (predictSingle st s k arg).cache ⟨s, k, d⟩ = some r := by
  rcases predictSingle_shape st s k arg with
    ⟨heq, _⟩ | ⟨d, r0, hd, hc, heq⟩ | ⟨d, _, _, _, heq⟩ | ⟨d, _, _, heq⟩
      | ⟨d, raw, hd, _, heq⟩
  · rw [heq] at hres
    exact absurd hres (by simp)
  · rw [heq] at hres ⊢
    have : r0 = r := by simpa using hres
    exact ⟨d, hd, by rw [← this]; exact hc⟩
  · rw [heq] at hres
    exact absurd hres (by simp)
  · rw [heq] at hres
    exact absurd hres (by simp)
  · rw [heq] at hres ⊢
    have : mkResult raw = r := by simpa using hres
    exact ⟨d, hd, by rw [← this]; exact cacheGet_set _ _ _⟩

/-- C7 (as amended): the point cache is keyed by (store_id, sku_id,
target_date) only — the model id is NOT part of the key.  A repeat call with
the same (store, sku, date) returns the identical cached result with zero
feature preparations and zero model runs, and it does so under ANY loaded
model, including one different from the model that produced the entry. -/
theorem claim_C7_cache_key_no_model (st : MLState) (s k : String) (arg : DateArg)
    (r : PredResult) (hres : (predictSingle st s k arg).result = some r)
    (f2 : FeatureRow → Except String ℚ) :
    predictSingle
      { model := some f2, encStore := st.encStore, encSku := st.encSku,
        history := st.history, cache := (predictSingle st s k arg).cache } s k arg
      = ⟨some r, (predictSingle st s k arg).cache, 0, 0⟩ := by
  obtain ⟨d, hd, hc⟩ := predictSingle_some_inCache st s k arg r hres
  exact predictSingle_cacheHit _ s k arg f2 d r rfl hd hc

/-- C7 counterexample: with the history of `histOne`, model A (predicting 5)
fills the cache for (S, P, day 10); after switching to model B (predicting
50) the same request is answered from the cache with model A's result — the
entry is returned for a request served by a different model, because the key
has no model id. -/
theorem claim_C7_counterexample :
    (predictSingle stModelA "S" "P" (.date 10)).result = some (mkResult 5)
    ∧ (predictSingle stModelB "S" "P" (.date 10)).result = some (mkResult 5)
    ∧ (predictSingle stModelB "S" "P" (.date 10)).modelCalls = 0
    ∧ (predictSingle { stModelB with cache := [] } "S" "P" (.date 10)).result
        = some (mkResult 50)
    ∧ mkResult 5 ≠ mkResult 50 := by
  refine ⟨rfl, rfl, rfl, rfl, ?_⟩
  intro h
  have hd := congrArg PredResult.demand h
  norm_num [mkResult] at hd

/-- C7 witness: the amended theorem applied at the concrete model switch. -/
theorem claim_C7_witness :
    predictSingle
      { model := some (fun _ => .ok 50), encStore := stModelA.encStore,
        encSku := stModelA.encSku, history := stModelA.history,
        cache := (predictSingle stModelA "S" "P" (.date 10)).cache } "S" "P" (.date 10)
      = ⟨some (mkResult 5), (predictSingle stModelA "S" "P" (.date 10)).cache, 0, 0⟩ :=
  claim_C7_cache_key_no_model stModelA "S" "P" (.date 10) (mkResult 5) (by rfl)
    (fun _ => .ok 50)

/-- If the store id is not in the fitted encoder classes, the feature builder
catches the encoder's rejection and degrades both encodings to 0. -/
theorem prepareFeatures_unknownId (encS encK : List String) (s k : String)
    (hist : List Obs) (target : Int) (row : FeatureRow) (hs : s ∉ encS)
    (hp : prepareFeaturesForPrediction encS encK s k hist target = some row) :
    row.store_id_encoded = 0 ∧ row.sku_id_encoded = 0 := by
  have he : encodePair encS encK s k = (0, 0) := by
    unfold encodePair
    rw [if_neg]
    rintro ⟨h1, _⟩
    exact hs h1
  simp only [prepareFeaturesForPrediction] at hp
  split at hp
  · cases hp
  · injection hp with hp
    subst hp
    simp [he]

/-- C10: `predict_single` is total — internal exceptions never propagate.
A malformed date string (the parse outcome is `none`) yields `None`; a model
whose `predict` raises yields `None`; an artifact whose encoders reject the
ids does not abort the call at all — the rejection is caught inside the
feature builder, the encodings degrade to 0 and the call completes
normally. -/
theorem claim_C10_no_exception_propagation (st : MLState) (s k : String) :
    ((predictSingle st s k (.str none)).result = none)
    ∧ (∀ arg f d row e, st.model = some f → resolveDate arg = some d →
        cacheGet st.cache ⟨s, k, d⟩ = none →
        prepareFeaturesForPrediction st.encStore st.encSku s k (st.history s k) d
          = some row →
        f row = .error e → (predictSingle st s k arg).result = none)
    ∧ (∀ arg f d row raw, s ∉ st.encStore → st.model = some f →
        resolveDate arg = some d → cacheGet st.cache ⟨s, k, d⟩ = none →
        prepareFeaturesForPrediction st.encStore st.encSku s k (st.history s k) d
          = some row →
        f row = .ok raw →
        row.store_id_encoded = 0 ∧ row.sku_id_encoded = 0
          ∧ (predictSingle st s k arg).result = some (mkResult raw)) := by
  refine ⟨?_, ?_, ?_⟩
  · rcases hm : st.model with _ | f
    · rw [predictSingle_noModel st s k (.str none) hm]
    · rw [predictSingle_parseFail st s k (.str none) f hm rfl]
  · intro arg f d row e hm hd hc hp hf
    rw [predictSingle_modelError st s k arg f d row e hm hd hc hp hf]
  · intro arg f d row raw hs hm hd hc hp hf
    obtain ⟨h1, h2⟩ := prepareFeatures_unknownId _ _ _ _ _ _ _ hs hp
    exact ⟨h1, h2, by rw [predictSingle_fresh st s k arg f d row raw hm hd hc hp hf]⟩

/-- C10 witness: the three failure classes at concrete states — malformed
date, raising model, and an id the encoders reject (which still predicts). -/
theorem claim_C10_witness :
    (predictSingle stOk "S" "P" (.str none)).result = none
    ∧ (predictSingle stRaise "S" "P" (.date 10)).result = none
    ∧ (predictSingle stOk "X" "P" (.date 10)).result = some (mkResult 10) := by
  refine ⟨(claim_C10_no_exception_propagation stOk "S" "P").1, ?_, ?_⟩
  · exact (claim_C10_no_exception_propagation stRaise "S" "P").2.1 (.date 10) _ 10
      ⟨0, 0, 5, 5, 5, 5, 5, 5, 5, 1, 0, 1, 10, 5 / 11, 0⟩ "predict raised"
      rfl rfl rfl
      (by norm_num [prepareFeaturesForPrediction, windowObs, lagFeature,
        rollingMeanLast, encodePair, stRaise, histOne, List.filter]) rfl
  · exact ((claim_C10_no_exception_propagation stOk "X" "P").2.2 (.date 10) _ 10
      ⟨0, 0, 5, 5, 5, 5, 5, 5, 5, 1, 0, 1, 10, 5 / 11, 0⟩ 10
      (by decide) rfl rfl rfl
      (by norm_num [prepareFeaturesForPrediction, windowObs, lagFeature,
          rollingMeanLast, encodePair, stOk, histOne, List.filter]
          decide) rfl).2.2

theorem getD_mem_of_lt {α : Type} (l : List α) (i : Nat) (h : i < l.length) (d : α) :
    l.getD i d ∈ l := by
  induction l generalizing i with
  | nil => simp at h
  | cons a t ih =>
    cases i with
    | zero => simp
    | succ j =>
      simp only [List.getD_cons_succ]
      exact List.mem_cons_of_mem _ (ih j (by simpa using h) )

/-- The lag-1 feature is unconditionally the most recent value (default 0 on
an empty list): both branches of the source expression coincide at n = 1. -/
theorem lagFeature_one (sales : List ℚ) :
    lagFeature sales 1 = sales.reverse.getD 0 0 := by
  unfold lagFeature
  split <;> rfl

/-- Insufficient history: for n beyond the number of observations the lag
falls back to the lag-1 (most recent) value. -/
theorem lagFeature_fallback (sales : List ℚ) (n : Nat) (h : sales.length < n) :
    lagFeature sales n = lagFeature sales 1 := by
  rw [lagFeature_one]
  unfold lagFeature
  rw [if_neg (by omega)]

/-- Sufficient history: the lag feature is exactly the n-th most recent
observation (position n−1 of the reversed window). -/
theorem lagFeature_exact (sales : List ℚ) (n : Nat) (h1 : 1 ≤ n)
    (h2 : n ≤ sales.length) :
    sales.reverse.get? (n - 1) = some (lagFeature sales n) := by
  unfold lagFeature
  rw [if_pos h2]
  have hlt : n - 1 < sales.reverse.length := by
    rw [List.length_reverse]
    omega
  rw [List.getD_eq_getElem?_getD, List.get?_eq_getElem?, List.getElem?_eq_getElem hlt]
  rfl

/-- On a non-empty window every lag feature is one of the observed sales
values (in particular a finite number, never NaN). -/
theorem lagFeature_mem (sales : List ℚ) (n : Nat) (h : sales ≠ []) :
    lagFeature sales n ∈ sales := by
  have hlen : 0 < sales.length := List.length_pos.mpr h
  have hrev : ∀ i, i < sales.length → sales.reverse.getD i 0 ∈ sales := by
    intro i hi
    have : sales.reverse.getD i 0 ∈ sales.reverse :=
      getD_mem_of_lt _ i (by rwa [List.length_reverse]) 0
    rwa [List.mem_reverse] at this
  unfold lagFeature
  split
  · exact hrev (n - 1) (by omega)
  · exact hrev 0 hlen

/-- Field-level reading of a successful feature build: the window is
non-empty, the four lag features are `lagFeature` of the window's sales, the
carried inventory is the most recent on-hand value, and the inventory ratio
divides the lag-1 sales by that inventory plus one. -/
theorem prepareFeatures_fields (encS encK : List String) (s k : String)
    (hist : List Obs) (target : Int) (fr : FeatureRow)
    (h : prepareFeaturesForPrediction encS encK s k hist target = some fr) :
    windowObs hist target ≠ []
    ∧ fr.sales_lag_1 = lagFeature ((windowObs hist target).map (·.sales)) 1
    ∧ fr.sales_lag_7 = lagFeature ((windowObs hist target).map (·.sales)) 7
    ∧ fr.sales_lag_14 = lagFeature ((windowObs hist target).map (·.sales)) 14
    ∧ fr.sales_lag_30 = lagFeature ((windowObs hist target).map (·.sales)) 30
    ∧ fr.on_hand = ((windowObs hist target).map (·.on_hand)).reverse.getD 0 50
    ∧ fr.inventory_ratio = fr.sales_lag_1 / ((fr.on_hand : ℚ) + 1) := by
  simp only [prepareFeaturesForPrediction] at h
  split at h
  · cases h
  · injection h with h
    subst h
    exact ⟨by assumption, rfl, rfl, rfl, rfl, rfl, rfl⟩

/-- C1 (as amended): the inference lag features are POSITIONAL over the
observation window (which spans the 60 days up to and including the target
date): `sales_lag_N` is the sales of the N-th most recent observation when
the window holds at least N observations; with fewer observations it falls
back to the lag-1 (most recent) value; on an empty window the builder returns
nothing (and the source expression would yield 0).  Every lag value is one of
the observed sales values, hence finite — but it is NOT in general the value
N calendar days before the target, and may lie farther in the past than
requested. -/
theorem claim_C1_lag_fallback_chain (encS encK : List String) (s k : String)
    (hist : List Obs) (target : Int) (fr : FeatureRow)
    (h : prepareFeaturesForPrediction encS encK s k hist target = some fr) :
    (fr.sales_lag_1 = lagFeature ((windowObs hist target).map (·.sales)) 1
      ∧ fr.sales_lag_7 = lagFeature ((windowObs hist target).map (·.sales)) 7
      ∧ fr.sales_lag_14 = lagFeature ((windowObs hist target).map (·.sales)) 14
      ∧ fr.sales_lag_30 = lagFeature ((windowObs hist target).map (·.sales)) 30)
    ∧ (∀ n, 1 ≤ n → n ≤ ((windowObs hist target).map (·.sales)).length →
        ((windowObs hist target).map (·.sales)).reverse.get? (n - 1)
          = some (lagFeature ((windowObs hist target).map (·.sales)) n))
    ∧ (∀ n, ((windowObs hist target).map (·.sales)).length < n →
        lagFeature ((windowObs hist target).map (·.sales)) n
          = lagFeature ((windowObs hist target).map (·.sales)) 1)
    ∧ (∀ n, lagFeature ((windowObs hist target).map (·.sales)) n
        ∈ (windowObs hist target).map (·.sales)) := by
  obtain ⟨hw, h1, h7, h14, h30, _, _⟩ :=
    prepareFeatures_fields encS encK s k hist target fr h
  have hne : (windowObs hist target).map (·.sales) ≠ [] := by
    simpa using hw
  exact ⟨⟨h1, h7, h14, h30⟩,
    fun n hn1 hn2 => lagFeature_exact _ n hn1 hn2,
    fun n hn => lagFeature_fallback _ n hn,
    fun n => lagFeature_mem _ n hne⟩

/-- C1 counterexample: the window for target day 10 contains an observation
dated 9 = 10 − 1 with sales 5, yet `sales_lag_1` is 9 — the sales of the
observation AT the target date itself (the query window is inclusive of the
target date and lags are positional, not calendar).  So the lag feature is
not "the sales value N days before the target date" even when the window
contains that value. -/
theorem claim_C1_counterexample :
    (prepareFeaturesForPrediction ["S"] ["P"] "S" "P"
        [⟨9, 5, 1, 10, false⟩, ⟨10, 9, 1, 10, false⟩] 10).map (·.sales_lag_1)
      = some 9
    ∧ (⟨9, 5, 1, 10, false⟩ : Obs)
        ∈ windowObs [⟨9, 5, 1, 10, false⟩, ⟨10, 9, 1, 10, false⟩] 10
    ∧ (10 : Int) - 1 = 9
    ∧ (9 : ℚ) ≠ 5 := by
  refine ⟨by decide, by decide, by decide, by norm_num⟩

/-- C1 witness: the amended characterization applied to the two-observation
history — the exact-lag reading at n = 1 and the fallback at n = 7. -/
theorem claim_C1_witness :
    ((windowObs [⟨9, 5, 1, 10, false⟩, ⟨10, 9, 1, 10, false⟩] 10).map
          (·.sales)).reverse.get? 0
      = some (lagFeature ((windowObs [⟨9, 5, 1, 10, false⟩, ⟨10, 9, 1, 10, false⟩] 10).map
          (·.sales)) 1)
    ∧ lagFeature ((windowObs [⟨9, 5, 1, 10, false⟩, ⟨10, 9, 1, 10, false⟩] 10).map
          (·.sales)) 7
        = lagFeature ((windowObs [⟨9, 5, 1, 10, false⟩, ⟨10, 9, 1, 10, false⟩] 10).map
          (·.sales)) 1 := by
  have happ := claim_C1_lag_fallback_chain ["S"] ["P"] "S" "P"
    [⟨9, 5, 1, 10, false⟩, ⟨10, 9, 1, 10, false⟩] 10
    ⟨0, 0, 9, 9, 9, 9, 7, 7, 7, 1, 0, 1, 10, 9 / 11, 0⟩
    (by norm_num [prepareFeaturesForPrediction, windowObs, lagFeature,
        rollingMeanLast, encodePair, List.filter]
        decide)
  exact ⟨happ.2.1 1 (by decide) (by decide), happ.2.2.1 7 (by decide)⟩

/-- C8 (as amended): the INFERENCE builder sets
`inventory_ratio = sales_lag_1 / (on_hand + 1)` with `on_hand` the most
recent on-hand value; the TRAINING builder instead divides the row's own
same-day sales by `on_hand + 1`.  In both, for non-negative on-hand the
denominator is at least 1, so the division is exact and the ratio finite. -/
theorem claim_C8_inventory_ratio (encS encK : List String) (s k : String)
    (hist : List Obs) (target : Int) (fr : FeatureRow)
    (h : prepareFeaturesForPrediction encS encK s k hist target = some fr)
    (hinv : ∀ o ∈ hist, 0 ≤ o.on_hand) :
    0 ≤ fr.on_hand
    ∧ (1 : ℚ) ≤ (fr.on_hand : ℚ) + 1
    ∧ fr.inventory_ratio = fr.sales_lag_1 / ((fr.on_hand : ℚ) + 1)
    ∧ fr.inventory_ratio * ((fr.on_hand : ℚ) + 1) = fr.sales_lag_1
    ∧ (∀ row : TrainRow, 0 ≤ row.on_hand →
        (1 : ℚ) ≤ (row.on_hand : ℚ) + 1
        ∧ trainInventoryRatio row * ((row.on_hand : ℚ) + 1) = row.sales) := by
  obtain ⟨hw, _, _, _, _, hon, hratio⟩ :=
    prepareFeatures_fields encS encK s k hist target fr h
  have hmem : ((windowObs hist target).map (·.on_hand)).reverse.getD 0 50
      ∈ (windowObs hist target).map (·.on_hand) := by
    have hlen : 0 < ((windowObs hist target).map (·.on_hand)).reverse.length := by
      simpa [List.length_reverse, List.length_pos] using hw
    have := getD_mem_of_lt _ 0 hlen (50 : Int)
    rwa [List.mem_reverse] at this
  have h0 : 0 ≤ fr.on_hand := by
    rw [hon]
    obtain ⟨o, homem, hoeq⟩ := List.mem_map.mp hmem
    rw [← hoeq]
    exact hinv o (List.mem_of_mem_filter homem)
  have h1 : (1 : ℚ) ≤ (fr.on_hand : ℚ) + 1 := by
    have : (0 : ℚ) ≤ (fr.on_hand : ℚ) := by exact_mod_cast h0
    linarith
  have hne : ((fr.on_hand : ℚ) + 1) ≠ 0 := by linarith
  refine ⟨h0, h1, hratio, ?_, ?_⟩
  · rw [hratio]
    exact div_mul_cancel₀ _ hne
  · intro row hrow
    have hr0 : (0 : ℚ) ≤ (row.on_hand : ℚ) := by exact_mod_cast hrow
    have hrne : ((row.on_hand : ℚ) + 1) ≠ 0 := by linarith
    exact ⟨by linarith, div_mul_cancel₀ _ hrne⟩

/-- C8 counterexample: in the training builder the second row of the group
(date 1: sales 7, on_hand 3) has lag-1 sales 5, so the claimed formula gives
5 / (3 + 1); the code computes 7 / (3 + 1) from the row's own sales. -/
theorem claim_C8_counterexample :
    trainSalesLag [⟨0, 5, 1, 9, false⟩, ⟨1, 7, 1, 3, false⟩] 1 1 = some 5
    ∧ trainInventoryRatio ⟨1, 7, 1, 3, false⟩ = 7 / ((3 : ℚ) + 1)
    ∧ trainInventoryRatio ⟨1, 7, 1, 3, false⟩ ≠ 5 / ((3 : ℚ) + 1) := by
  refine ⟨by decide, by norm_num [trainInventoryRatio], ?_⟩
  norm_num [trainInventoryRatio]

/-- C8 witness: the amended theorem applied to the one-observation history. -/
theorem claim_C8_witness :
    0 ≤ (⟨0, 0, 5, 5, 5, 5, 5, 5, 5, 1, 0, 1, 10, 5 / 11, 0⟩ : FeatureRow).on_hand
    ∧ (1 : ℚ)
        ≤ ((⟨0, 0, 5, 5, 5, 5, 5, 5, 5, 1, 0, 1, 10, 5 / 11, 0⟩ : FeatureRow).on_hand : ℚ)
          + 1 := by
  have happ := claim_C8_inventory_ratio ["S"] ["P"] "S" "P" (histOne "S" "P") 10
    ⟨0, 0, 5, 5, 5, 5, 5, 5, 5, 1, 0, 1, 10, 5 / 11, 0⟩
    (by norm_num [prepareFeaturesForPrediction, windowObs, lagFeature,
        rollingMeanLast, encodePair, histOne, List.filter])
    (by decide)
  exact ⟨happ.1, happ.2.1⟩

/-- C3 (as amended): once `save_model` has completed both statements, exactly
one `MLModel` row is active — the newly inserted one — regardless of how many
were active before.  The transition is NOT atomic, however: the insert and
the deactivating update are two separate queries (see the counterexample). -/
theorem claim_C3_one_active_after_save (db : List ModelRow) (newId : Nat)
    (hfresh : ∀ r ∈ db, r.id ≠ newId) :
    (saveModel db newId).filter (·.is_active) = [{ id := newId, is_active := true }]
    ∧ countActive (saveModel db newId) = 1 := by
  have hfilter :
      (saveModel db newId).filter (·.is_active) = [{ id := newId, is_active := true }] := by
    unfold saveModel createModel deactivateOthers
    rw [List.map_append, List.filter_append]
    have hleft :
        ((db.map fun r =>
            if r.id ≠ newId ∧ r.is_active then { r with is_active := false } else r).filter
          (·.is_active)) = [] := by
      rw [List.filter_eq_nil_iff]
      intro a ha
      obtain ⟨r, hr, hra⟩ := List.mem_map.mp ha
      by_cases hact : r.is_active
      · have : (if r.id ≠ newId ∧ r.is_active then { r with is_active := false } else r)
            = { r with is_active := false } :=
          if_pos ⟨hfresh r hr, hact⟩
        rw [this] at hra
        rw [← hra]
        simp
      · have : (if r.id ≠ newId ∧ r.is_active then { r with is_active := false } else r) = r := by
          rw [if_neg]
          rintro ⟨_, h⟩
          exact hact h
        rw [this] at hra
        rw [← hra]
        simpa using hact
    rw [hleft]
    simp
  exact ⟨hfilter, by unfold countActive; rw [hfilter]; rfl⟩

/-- C3 counterexample: starting from one active model (id 1), the state after
`MLModel.objects.create(..., is_active=True)` but before the deactivating
`update` has TWO active rows — an observable intermediate state, since the
two statements are separate queries with no enclosing transaction.  The final
state does have exactly one. -/
theorem claim_C3_counterexample :
    countActive (createModel [⟨1, true⟩] 2) = 2
    ∧ countActive (saveModel [⟨1, true⟩] 2) = 1 := by
  decide

/-- C3 witness: the amended theorem at the concrete one-active database. -/
theorem claim_C3_witness :
    (saveModel [⟨1, true⟩] 2).filter (·.is_active) = [{ id := 2, is_active := true }]
    ∧ countActive (saveModel [⟨1, true⟩] 2) = 1 :=
  claim_C3_one_active_after_save [⟨1, true⟩] 2 (by decide)

/-- Python `int()` truncation agrees with `floor` on non-negative values. -/
theorem truncToInt_nonneg (q : ℚ) (h : 0 ≤ q) : truncToInt q = ⌊q⌋ := by
  unfold truncToInt
  rw [if_pos h]

/-- C4 (as amended): the alert rules are evaluated first-match-wins.  For
non-negative inventory and demand: on-hand strictly below 1.5× demand gives a
stockout alert with `days_until_stockout = max(1, ⌊on_hand / max(demand, 1)⌋)`
(`int()` truncation equals floor here), the claimed priority ladder, and a
recommended reorder of `2 × demand` TRUNCATED to an integer (`int(...)`, i.e.
floor — not rounded to nearest); otherwise on-hand strictly above 4× demand
gives an overstock alert with fixed low priority; otherwise no alert. -/
theorem claim_C4_alert_rules (onHand : Int) (demand : ℚ)
    (h0 : 0 ≤ onHand) (h1 : 0 ≤ demand) :
    ((onHand : ℚ) < demand * (15 / 10) →
      alertRule onHand demand
        = some { alert_type := "stockout_risk",
                 priority := stockoutPriority (max 1 ⌊(onHand : ℚ) / max demand 1⌋),
                 days := some (max 1 ⌊(onHand : ℚ) / max demand 1⌋),
                 reorder := some ⌊demand * 2⌋ })
    ∧ (∀ dys : Int, stockoutPriority dys
        = if dys ≤ 3 then "critical"
          else if dys ≤ 7 then "high"
          else if dys ≤ 14 then "medium"
          else "low")
    ∧ (¬(onHand : ℚ) < demand * (15 / 10) → demand * 4 < (onHand : ℚ) →
        alertRule onHand demand
          = some { alert_type := "overstock_risk", priority := "low",
                   days := none, reorder := none })
    ∧ (¬(onHand : ℚ) < demand * (15 / 10) → ¬demand * 4 < (onHand : ℚ) →
        alertRule onHand demand = none) := by
  have hmaxpos : (0 : ℚ) < max demand 1 := lt_of_lt_of_le one_pos (le_max_right demand 1)
  have hquot : (0 : ℚ) ≤ (onHand : ℚ) / max demand 1 :=
    div_nonneg (by exact_mod_cast h0) (le_of_lt hmaxpos)
  have hdays : daysUntilStockout onHand demand = max 1 ⌊(onHand : ℚ) / max demand 1⌋ := by
    unfold daysUntilStockout
    rw [truncToInt_nonneg _ hquot]
  refine ⟨?_, fun dys => rfl, ?_, ?_⟩
  · intro hlt
    unfold alertRule
    rw [if_pos hlt, hdays, truncToInt_nonneg _ (by linarith)]
  · intro hge hover
    unfold alertRule
    rw [if_neg hge, if_pos hover]
  · intro hge hnotover
    unfold alertRule
    rw [if_neg hge, if_neg hnotover]

/-- C4 counterexample: at on_hand = 5, predicted_demand = 10.4 the stockout
branch fires and the code recommends `int(10.4 * 2) = int(20.8) = 20` units —
but 2 × 10.4 = 20.8 ROUNDED to integer is 21.  The recommended quantity is
truncated, not rounded. -/
theorem claim_C4_counterexample :
    alertRule 5 (52 / 5)
      = some { alert_type := "stockout_risk", priority := "critical",
               days := some 1, reorder := some 20 }
    ∧ round ((52 / 5 : ℚ) * 2) = 21
    ∧ (21 : Int) ≠ 20 := by
  refine ⟨?_, ?_, by decide⟩
  · norm_num [alertRule, daysUntilStockout, truncToInt, stockoutPriority]
  · norm_num [round_eq]

/-- C4 witness: the spec's own worked example on_hand = 5, demand = 10 —
stockout path, days = max(1, ⌊5/10⌋) = 1, priority critical, reorder 20. -/
theorem claim_C4_witness :
    alertRule 5 10
      = some { alert_type := "stockout_risk",
               priority := stockoutPriority (max 1 ⌊((5 : Int) : ℚ) / max 10 1⌋),
               days := some (max 1 ⌊((5 : Int) : ℚ) / max 10 1⌋),
               reorder := some ⌊(10 : ℚ) * 2⌋ } :=
  (claim_C4_alert_rules 5 10 (by decide) (by norm_num)).1 (by norm_num)



/-- One loop iteration advances `completed` by zero or one. -/
theorem stepItem_completed (st : BatchState) (it : ItemOutcome) :
    st.completed ≤ (stepItem st it).completed
    ∧ (stepItem st it).completed ≤ st.completed + 1 := by
  by_cases hr : it.raised <;> by_cases hp : it.predicted <;> by_cases hf : it.flushOk <;>
    simp only [stepItem, hr, hp, hf, Bool.false_eq_true, ite_true, ite_false] <;>
    first
      | omega
      | (split <;> dsimp only <;> omega)

/-- One loop iteration preserves the progress invariant: the persisted
`completed_predictions` values are sorted and bounded by the live counter. -/
theorem stepItem_invariant (st : BatchState) (it : ItemOutcome)
    (hsorted : List.Sorted (· ≤ ·) st.saves)
    (hbound : ∀ c ∈ st.saves, c ≤ st.completed) :
    List.Sorted (· ≤ ·) (stepItem st it).saves
    ∧ ∀ c ∈ (stepItem st it).saves, c ≤ (stepItem st it).completed := by
  have hkeep : ∀ c ∈ st.saves, c ≤ st.completed + 1 :=
    fun c hc => le_trans (hbound c hc) (Nat.le_succ _)
  have happend : List.Sorted (· ≤ ·) (st.saves ++ [st.completed + 1]) :=
    List.pairwise_append.mpr
      ⟨hsorted, List.pairwise_singleton _ _, fun a ha b hb => by
        simp only [List.mem_singleton] at hb
        subst hb
        exact hkeep a ha⟩
  have hboundapp : ∀ c ∈ st.saves ++ [st.completed + 1], c ≤ st.completed + 1 := by
    intro c hc
    rcases List.mem_append.mp hc with hc | hc
    · exact hkeep c hc
    · simp only [List.mem_singleton] at hc
      omega
  by_cases hr : it.raised <;> by_cases hp : it.predicted <;> by_cases hf : it.flushOk <;>
    simp only [stepItem, hr, hp, hf, Bool.false_eq_true, ite_true, ite_false] <;>
    first
      | exact ⟨hsorted, hbound⟩
      | (split <;> dsimp only <;>
          first
            | exact ⟨happend, hboundapp⟩
            | exact ⟨hsorted, hkeep⟩)

/-- Folding the loop over any item list keeps the invariant and advances the
counter by at most the number of items. -/
theorem foldl_stepItem_invariant (items : List ItemOutcome) (st : BatchState)
    (hsorted : List.Sorted (· ≤ ·) st.saves)
    (hbound : ∀ c ∈ st.saves, c ≤ st.completed) :
    List.Sorted (· ≤ ·) (items.foldl stepItem st).saves
    ∧ (∀ c ∈ (items.foldl stepItem st).saves, c ≤ (items.foldl stepItem st).completed)
    ∧ (items.foldl stepItem st).completed ≤ st.completed + items.length := by
  induction items generalizing st with
  | nil => exact ⟨hsorted, hbound, Nat.le_refl _⟩
  | cons it rest ih =>
    obtain ⟨hs1, hb1⟩ := stepItem_invariant st it hsorted hbound
    obtain ⟨hs2, hb2, hc2⟩ := ih (stepItem st it) hs1 hb1
    refine ⟨hs2, hb2, ?_⟩
    have := (stepItem_completed st it).2
    simp only [List.foldl_cons, List.length_cons] at hc2 ⊢
    omega

theorem pairsFor_length (products : List String) (dates : List Int) (s : String) :
    (products.flatMap (fun p => dates.map (fun d => (s, p, d)))).length
      = products.length * dates.length := by
  induction products with
  | nil => simp
  | cons p rest ih =>
    simp only [List.flatMap_cons, List.length_append, List.length_map, ih,
      List.length_cons]
    ring

/-- The triple loop enumerates exactly |stores| × |products| × |dates| items. -/
theorem allItems_length (stores products : List String) (dates : List Int) :
    (allItems stores products dates).length
      = stores.length * products.length * dates.length := by
  unfold allItems
  induction stores with
  | nil => simp
  | cons s rest ih =>
    simp only [List.flatMap_cons, List.length_append, ih, List.length_cons,
      pairsFor_length]
    ring

/-- C5: `total_predictions` is set to exactly |stores| × |products| × |dates|
before the loop touches any item, and the persisted `completed_predictions`
values — the observation points — form a monotonically non-decreasing
sequence, each bounded by `total_predictions`, whatever the per-item and
flush outcomes are. -/
theorem claim_C5_batch_progress (stores products : List String) (dates : List Int)
    (outcome : String × String × Int → ItemOutcome) (finalOk : Bool) :
    (batchPredictRun stores products dates outcome finalOk).total
        = stores.length * products.length * dates.length
    ∧ List.Sorted (· ≤ ·) (batchPredictRun stores products dates outcome finalOk).saves
    ∧ ∀ c ∈ (batchPredictRun stores products dates outcome finalOk).saves,
        c ≤ (batchPredictRun stores products dates outcome finalOk).total := by
  have hmap :
      ((allItems stores products dates).map outcome).foldl stepItem
          { completed := 0, batchLen := 0, saves := [0] }
        = (allItems stores products dates).foldl
            (fun st it => stepItem st (outcome it))
            { completed := 0, batchLen := 0, saves := [0] } := by
    rw [List.foldl_map]
  obtain ⟨hs, hb, hc⟩ := foldl_stepItem_invariant
    ((allItems stores products dates).map outcome)
    { completed := 0, batchLen := 0, saves := [0] }
    (List.pairwise_singleton _ _)
    (by intro c hc; simp only [List.mem_singleton] at hc; omega)
  rw [hmap] at hs hb hc
  rw [List.length_map] at hc
  set fin := (allItems stores products dates).foldl
    (fun st it => stepItem st (outcome it)) { completed := 0, batchLen := 0, saves := [0] }
    with hfin
  simp only [batchPredictRun, allItems_length, ← hfin]
  refine ⟨trivial, ?_, ?_⟩
  · split
    · exact List.pairwise_append.mpr
        ⟨hs, List.pairwise_singleton _ _, fun a ha b hb2 => by
          simp only [List.mem_singleton] at hb2
          subst hb2
          exact hb a ha⟩
    · exact hs
  · have htot : fin.completed ≤ stores.length * products.length * dates.length := by
      rw [allItems_length] at hc
      have h0 : ({ completed := 0, batchLen := 0, saves := [0] } : BatchState).completed
          = 0 := rfl
      omega
    intro c hmem
    split at hmem
    · rcases List.mem_append.mp hmem with hm | hm
      · exact le_trans (hb c hm) htot
      · simp only [List.mem_singleton] at hm
        omega
    · exact le_trans (hb c hmem) htot

/-- C5 witness: a concrete 1×2×2 run in which the second item raises — total
is 4, the saves are [0, 3] (initial save plus final save), monotone and
bounded. -/
theorem claim_C5_witness :
    (batchPredictRun ["S"] ["P", "Q"] [1, 2]
        (fun item => { raised := item.2.2 == 2 && item.2.1 == "P",
                       predicted := true, flushOk := true }) true).total = 1 * 2 * 2
    ∧ (0 : Nat)
        ∈ (batchPredictRun ["S"] ["P", "Q"] [1, 2]
            (fun item => { raised := item.2.2 == 2 && item.2.1 == "P",
                           predicted := true, flushOk := true }) true).saves
    ∧ ∀ c ∈ (batchPredictRun ["S"] ["P", "Q"] [1, 2]
          (fun item => { raised := item.2.2 == 2 && item.2.1 == "P",
                         predicted := true, flushOk := true }) true).saves,
        c ≤ (batchPredictRun ["S"] ["P", "Q"] [1, 2]
          (fun item => { raised := item.2.2 == 2 && item.2.1 == "P",
                         predicted := true, flushOk := true }) true).total := by
  refine ⟨?_, by decide, ?_⟩
  · exact (claim_C5_batch_progress ["S"] ["P", "Q"] [1, 2]
      (fun item => { raised := item.2.2 == 2 && item.2.1 == "P",
                     predicted := true, flushOk := true }) true).1
  · exact (claim_C5_batch_progress ["S"] ["P", "Q"] [1, 2]
      (fun item => { raised := item.2.2 == 2 && item.2.1 == "P",
                     predicted := true, flushOk := true }) true).2.2

/-- A freshly inserted alert matches its own lookup key. -/
theorem alertKeyMatches_mk (s p t prio : String) :
    alertKeyMatches { store := s, product := p, alert_type := t,
                      priority := prio, is_acknowledged := false } s p t = true := by
  simp [alertKeyMatches]

/-- C9: alert creation is idempotent while an unacknowledged alert of the same
(store, product, alert_type) is outstanding.  A second detection — even one
computing a different priority — leaves the alert table unchanged
(`get_or_create` finds the existing row and applies no defaults), and a
detection starting from no outstanding alert creates exactly one. -/
theorem claim_C9_alert_dedup (alerts : List Alert) (s p t prio prio2 : String) :
    processDetection (processDetection alerts s p t prio) s p t prio2
        = processDetection alerts s p t prio
    ∧ (alertCount alerts s p t = 0 →
        alertCount (processDetection alerts s p t prio) s p t = 1) := by
  rcases hf : alerts.find? (fun a => alertKeyMatches a s p t) with _ | a0
  · have hnil : alerts.filter (fun a => alertKeyMatches a s p t) = [] := by
      rw [List.filter_eq_nil_iff]
      intro a ha hmatch
      have := List.find?_eq_none.mp hf a ha
      exact this hmatch
    have hproc : processDetection alerts s p t prio
        = alerts ++ [{ store := s, product := p, alert_type := t,
                       priority := prio, is_acknowledged := false }] := by
      unfold processDetection
      rw [hf]
    constructor
    · rw [hproc]
      unfold processDetection
      rw [List.find?_append, hf, Option.none_or]
      simp [alertKeyMatches_mk]
    · intro _
      rw [hproc]
      unfold alertCount
      rw [List.filter_append, hnil]
      simp [alertKeyMatches_mk]
  · have hproc : processDetection alerts s p t prio = alerts := by
      unfold processDetection
      rw [hf]
    constructor
    · rw [hproc]
      unfold processDetection
      rw [hf]
    · intro hzero
      exfalso
      have hmem := List.find?_some hf
      have hin : a0 ∈ alerts.filter (fun a => alertKeyMatches a s p t) :=
        List.mem_filter.mpr ⟨List.mem_of_find?_eq_some hf, by simpa using hmem⟩
      unfold alertCount at hzero
      rw [List.length_eq_zero] at hzero
      rw [hzero] at hin
      exact List.not_mem_nil _ hin

/-- C9 witness: from an empty alert table one stockout detection creates
exactly one alert and the second detection is a no-op. -/
theorem claim_C9_witness :
    processDetection (processDetection [] "S" "P" "stockout_risk" "critical")
        "S" "P" "stockout_risk" "critical"
      = processDetection [] "S" "P" "stockout_risk" "critical"
    ∧ alertCount (processDetection [] "S" "P" "stockout_risk" "critical")
        "S" "P" "stockout_risk" = 1 :=
  ⟨(claim_C9_alert_dedup [] "S" "P" "stockout_risk" "critical" "critical").1,
   (claim_C9_alert_dedup [] "S" "P" "stockout_risk" "critical" "critical").2 (by decide)⟩
